import Mathlib

/-!
# Sonic Pi scope widget (`app/gui/qt/scope.cpp`)

A shallow embedding of the data path of `Scope`: the two sample windows
`sample[0]`, `sample[1]`, the pause flag, the `emptyFrames` counter, the
shared-memory reader's validity, and the list of panels.

Conventions.

* `unsigned int` arithmetic is arithmetic on `Nat` reduced modulo `2^32`
  (`wrap32`).
* An array access outside the array is undefined behaviour in C++; the
  embedding returns `none` for it.
* The samples are only ever copied, so the sample type is a parameter `α`.
* The window capacity, the literal `4096` of the source, is the parameter `N`
  of the loops; `Scope.refreshScope` is the instance `N = 4096`.
* The shared-memory transport (`server_shared_memory_client`,
  `scope_buffer_reader`) is not part of this file of the repository: what it
  answers during one call of `refreshScope` is the record `Env`.
* `scope.h` is not available; `emptyFrames` is taken to be an `unsigned int`
  like the other counters of this file (`frames`, `i`, `j`, `offset`), so
  `++emptyFrames` is `(emptyFrames + 1) % 2^32`.  Every reachable value is at
  most `10` (`emptyFrames_le_ten`).
* `ScopePanel::refresh` only repaints (`plot.replot()`); it changes nothing
  that is modelled here.
-/

namespace SonicPi

/-- The modulus of `unsigned int` arithmetic. -/
def wrap32 : Nat := 4294967296

/-- The window capacity used by `Scope` (the literal `4096`). -/
def windowSize : Nat := 4096

/-- The state of one `ScopePanel` that the control calls touch. -/
structure ScopePanel where
  name : String
  visible : Bool
  defaultShowX : Bool
  defaultShowY : Bool
  axisX : Bool
  axisY : Bool
  title : String
deriving DecidableEq

/-- The state of a `Scope`.  `resets` and `pulls` are ghost counters: the number
of calls of `resetScope` and of `shmReader.pull` made so far. -/
structure Scope (α : Type) where
  paused : Bool
  emptyFrames : Nat
  readerValid : Bool
  sample0 : List α
  sample1 : List α
  panels : List ScopePanel
  resets : Nat
  pulls : Nat
deriving DecidableEq

/-- What the outside world answers during one call of `refreshScope`:
`isVisible` is `QWidget::isVisible()`, `reconnect` the validity of the reader
obtained by the `resetScope` of line 169, `reconnectLate` that of the
`resetScope` of line 199, `pull` the value returned by `shmReader.pull(frames)`,
`frames` the count it stores, `maxFrames` the value of `max_frames()` and `data`
the buffer returned by `data()`. -/
structure Env (α : Type) where
  isVisible : Bool
  reconnect : Bool
  reconnectLate : Bool
  pull : Bool
  frames : Nat
  maxFrames : Nat
  data : Nat → α

/-- The constructor `ScopePanel::ScopePanel`: x axis hidden, y axis shown, title is the name. -/
def ScopePanel.new (name : String) : ScopePanel :=
  { name := name, visible := true, defaultShowX := false, defaultShowY := true,
    axisX := false, axisY := true, title := name }

/-- The method `ScopePanel::setXRange(min, max, showLabel)`, the axis flags only. -/
def ScopePanel.setXRange (p : ScopePanel) (showLabel : Bool) : ScopePanel :=
  { p with axisX := showLabel, defaultShowX := showLabel }

/-- The method `ScopePanel::setAxesVisible`. -/
def ScopePanel.setAxesVisible (p : ScopePanel) (b : Bool) : ScopePanel :=
  { p with axisY := b && p.defaultShowY, axisX := b && p.defaultShowX,
           title := if b then p.name else "" }

/-- The constructor `Scope::Scope`: not paused, `emptyFrames = 0`, the three panels.  The
constructor does not write the sample arrays and the reader is whatever its
default constructor gives, so both are arguments. -/
def Scope.new {α : Type} (w0 w1 : List α) (valid : Bool) : Scope α :=
  { paused := false, emptyFrames := 0, readerValid := valid,
    sample0 := w0, sample1 := w1,
    panels := [(ScopePanel.new "Lissajous").setXRange true,
               ScopePanel.new "Left", ScopePanel.new "Right"],
    resets := 0, pulls := 0 }

/-- The method `Scope::getScopeNames`: the panel names in construction order. -/
def Scope.getScopeNames {α : Type} (s : Scope α) : List String :=
  s.panels.map (fun p => p.name)

/-- The loop of `Scope::enableScope` over the panels: the first panel with the
given name gets `setVisible(b)`; `none` when the loop ends without a match. -/
def enablePanels (name : String) (b : Bool) : List ScopePanel → Option (List ScopePanel)
  | [] => none
  | p :: ps =>
    if p.name = name then some ({ p with visible := b } :: ps)
    else (enablePanels name b ps).map (fun qs => p :: qs)

/-- The method `Scope::enableScope`: the returned value and the new state. -/
def Scope.enableScope {α : Type} (name : String) (b : Bool) (s : Scope α) : Bool × Scope α :=
  match enablePanels name b s.panels with
  | some ps => (b, { s with panels := ps })
  | none => (true, s)

/-- The panels `ps` with `visible := b` in every panel called `name`, the others
as they are: what `enableScope` is expected to leave when the names are distinct. -/
def setVisibleByName (name : String) (b : Bool) (ps : List ScopePanel) : List ScopePanel :=
  ps.map (fun p => if p.name = name then { p with visible := b } else p)

/-- The method `Scope::setScopeAxes`. -/
def Scope.setScopeAxes {α : Type} (b : Bool) (s : Scope α) : Bool × Scope α :=
  (b, { s with panels := s.panels.map (fun p => p.setAxesVisible b) })

/-- The method `Scope::togglePause`. -/
def Scope.togglePause {α : Type} (s : Scope α) : Scope α :=
  { s with paused := !s.paused }

/-- The method `Scope::resetScope`: a new client and a new reader, whose validity `valid`
is decided by the outside world. -/
def Scope.resetScope {α : Type} (valid : Bool) (s : Scope α) : Scope α :=
  { s with readerValid := valid, resets := s.resets + 1 }

/-- Lines 167 to 170 of `refreshScope`: `if (!shmReader.valid()) resetScope();`. -/
def Scope.reconnectIfInvalid {α : Type} (e : Env α) (s : Scope α) : Scope α :=
  if !s.readerValid then s.resetScope e.reconnect else s

/-- The loop `for (i = 0; i < bound; ++i) sample[j][i] = sample[j][i+frames];`
with `n` iterations left, at index `i`. -/
def shiftLoop {α : Type} (frames : Nat) : Nat → Nat → List α → Option (List α)
  | 0, _, w => some w
  | n + 1, i, w =>
    match w[(i + frames) % wrap32]? with
    | none => none
    | some v => if i < w.length then shiftLoop frames n (i + 1) (w.set i v) else none

/-- The loop `for (i = 0; i < frames; ++i) sample[j][4096-frames+i] = data[i+offset];`
with `n` iterations left, at index `i`; `base` is `4096 - frames` as an
`unsigned int`. -/
def fillLoop {α : Type} (base offset : Nat) (data : Nat → α) : Nat → Nat → List α → Option (List α)
  | 0, _, w => some w
  | n + 1, i, w =>
    if (base + i) % wrap32 < w.length then
      fillLoop base offset data n (i + 1) (w.set ((base + i) % wrap32) (data ((i + offset) % wrap32)))
    else none

/-- The body of the loop over the channels (lines 179 to 188) for one channel
whose window is `w`, with `N` for the literal `4096`. -/
def ingest {α : Type} (N : Nat) (w : List α) (data : Nat → α) (offset frames : Nat) :
    Option (List α) :=
  let base := (N + wrap32 - frames) % wrap32
  (shiftLoop frames base 0 w).bind (fun w1 => fillLoop base offset data frames 0 w1)

/-- The method `Scope::refreshScope` with window capacity `N`: `none` when a copy
loop reads or writes outside a window. -/
def refreshScopeN {α : Type} (N : Nat) (e : Env α) (s : Scope α) : Option (Scope α) :=
  if s.paused then some s
  else if !e.isVisible then some s
  else
    let s1 := s.reconnectIfInvalid e
    let s2 := { s1 with pulls := s1.pulls + 1 }
    if e.pull then
      let frames := e.frames % wrap32
      match ingest N s2.sample0 e.data ((e.maxFrames * 0) % wrap32) frames with
      | none => none
      | some w0 =>
        match ingest N s2.sample1 e.data ((e.maxFrames * 1) % wrap32) frames with
        | none => none
        | some w1 => some { s2 with emptyFrames := 0, sample0 := w0, sample1 := w1 }
    else
      let c := (s2.emptyFrames + 1) % wrap32
      if c > 10 then some { s2.resetScope e.reconnectLate with emptyFrames := 0 }
      else some { s2 with emptyFrames := c }

/-- The method `Scope::refreshScope` as compiled, with capacity `4096`. -/
def Scope.refreshScope {α : Type} (e : Env α) (s : Scope α) : Option (Scope α) :=
  refreshScopeN windowSize e s

/-- A sequence of timer ticks, one `Env` per tick. -/
def runN {α : Type} (N : Nat) : List (Env α) → Scope α → Option (Scope α)
  | [], s => some s
  | e :: es, s => (refreshScopeN N e s).bind (runN N es)

/-- A sequence of ticks of the real scope. -/
def Scope.run {α : Type} (es : List (Env α)) (s : Scope α) : Option (Scope α) :=
  runN windowSize es s

/-- The samples `data[i + offset]`, `i < f`, read by the second loop. -/
def newSamples {α : Type} (data : Nat → α) (off f : Nat) : List α :=
  (List.range f).map (fun i => data ((i + off) % wrap32))

/-- The samples of channel `j` that a tick reads from the transport buffer:
`data[i + offset]` for `i < frames`, with `offset = max_frames() * j`, in
`unsigned int` arithmetic. -/
def Env.channel {α : Type} (e : Env α) (j : Nat) : List α :=
  newSamples e.data ((e.maxFrames * j) % wrap32) (e.frames % wrap32)

/-- All samples of channel `j` read by a sequence of ticks, oldest first. -/
def ingested {α : Type} (j : Nat) : List (Env α) → List α
  | [] => []
  | e :: es => e.channel j ++ ingested j es

/-- The states a scope can be in: after construction, and after any control
call or any tick that stays within the arrays. -/
inductive Reachable {α : Type} (N : Nat) : Scope α → Prop
  | new (w0 w1 : List α) (valid : Bool) :
      w0.length = N → w1.length = N → Reachable N (Scope.new w0 w1 valid)
  | tick (e : Env α) (s t : Scope α) :
      Reachable N s → refreshScopeN N e s = some t → Reachable N t
  | pause (s : Scope α) : Reachable N s → Reachable N s.togglePause
  | enable (name : String) (b : Bool) (s : Scope α) :
      Reachable N s → Reachable N (s.enableScope name b).2
  | axes (b : Bool) (s : Scope α) : Reachable N s → Reachable N (s.setScopeAxes b).2

/-- The last `N` elements of a list. -/
def lastN {α : Type} (N : Nat) (l : List α) : List α := l.drop (l.length - N)

/-! ## Concrete scopes and transports used in the examples -/

/-- A window of `4096` zeros. -/
def zeros : List Int := List.replicate 4096 0

/-- A freshly constructed scope whose reader is valid. -/
def scope0 : Scope Int := Scope.new zeros zeros true

/-- A freshly constructed scope whose reader is not valid. -/
def scopeDown : Scope Int := Scope.new zeros zeros false

/-- A live transport with nothing new: `pull` returns `true` with `0` frames. -/
def envIdle : Env Int :=
  { isVisible := true, reconnect := true, reconnectLate := true, pull := true,
    frames := 0, maxFrames := 4096, data := fun _ => 0 }

/-- A transport whose `pull` returns `false` and whose reconnection fails. -/
def envFail : Env Int :=
  { isVisible := true, reconnect := false, reconnectLate := false, pull := false,
    frames := 0, maxFrames := 4096, data := fun _ => 0 }

/-- A transport that delivers `4097` frames at once. -/
def envBurst : Env Int :=
  { isVisible := true, reconnect := true, reconnectLate := true, pull := true,
    frames := 4097, maxFrames := 8192, data := fun i => (i : Int) }

/-- A transport whose channel slots hold `2^32 - 1` frames and that delivers
three frames; sample `i` of its buffer has the value `i`. -/
def envWrap : Env Int :=
  { isVisible := true, reconnect := true, reconnectLate := true, pull := true,
    frames := 3, maxFrames := 4294967295, data := fun i => (i : Int) }

/-- A scope of capacity `8` with both windows zero. -/
def small0 : Scope Int := Scope.new (List.replicate 8 0) (List.replicate 8 0) true

/-- Three frames `1, 2, 3` on both channels (channel slots of `16` frames). -/
def envA : Env Int :=
  { isVisible := true, reconnect := true, reconnectLate := true, pull := true,
    frames := 3, maxFrames := 16, data := fun i => ((i % 16 : Nat) : Int) + 1 }

/-- Six frames `4, …, 9` on both channels. -/
def envB : Env Int :=
  { isVisible := true, reconnect := true, reconnectLate := true, pull := true,
    frames := 6, maxFrames := 16, data := fun i => ((i % 16 : Nat) : Int) + 4 }

/-! ## The two copy loops -/

theorem shiftLoop_inv {α : Type} (old : List α) (f : Nat) (hN : old.length < wrap32) :
    ∀ (n i : Nat) (w : List α), i + n + f = old.length → w.length = old.length →
      (∀ k, w[k]? = if k < i then old[k + f]? else old[k]?) →
      ∃ w', shiftLoop f n i w = some w' ∧ w'.length = old.length ∧
        ∀ k, w'[k]? = if k < i + n then old[k + f]? else old[k]? := by
  intro n
  induction n with
  | zero =>
    intro i w _ hl hw
    exact ⟨w, rfl, hl, by simpa using hw⟩
  | succ n ih =>
    intro i w hin hl hw
    have hlt : i + f < old.length := by omega
    have hmod : (i + f) % wrap32 = i + f := Nat.mod_eq_of_lt (by omega)
    have hget : w[(i + f) % wrap32]? = some (old[i + f]) := by
      rw [hmod, hw (i + f)]
      by_cases hf0 : i + f < i
      · omega
      · simp [hf0, List.getElem?_eq_getElem hlt]
    have hil : i < w.length := by omega
    obtain ⟨w', h1, h2, h3⟩ := ih (i + 1) (w.set i (old[i + f])) (by omega) (by simpa using hl)
      (by
        intro k
        rw [List.getElem?_set]
        by_cases hk : i = k
        · subst hk
          simp [hil, List.getElem?_eq_getElem hlt]
        · rw [if_neg hk, hw k]
          by_cases hk2 : k < i
          · have : k < i + 1 := by omega
            simp [hk2, this]
          · have : ¬ k < i + 1 := by omega
            simp [hk2, this])
    refine ⟨w', ?_, h2, ?_⟩
    · simp only [shiftLoop, hget, hil, if_true]
      exact h1
    · intro k
      rw [h3 k]
      have : i + 1 + n = i + (n + 1) := by omega
      rw [this]

theorem fillLoop_inv {α : Type} (base off : Nat) (data : Nat → α) (N : Nat) (hN : N < wrap32) :
    ∀ (n i : Nat) (w : List α), base + i + n = N → w.length = N →
      ∃ w', fillLoop base off data n i w = some w' ∧ w'.length = N ∧
        ∀ k, w'[k]? = if base + i ≤ k ∧ k < base + i + n
                      then some (data ((k - base + off) % wrap32)) else w[k]? := by
  intro n
  induction n with
  | zero =>
    intro i w _ hl
    refine ⟨w, rfl, hl, ?_⟩
    intro k
    have : ¬ (base + i ≤ k ∧ k < base + i + 0) := by omega
    rw [if_neg this]
  | succ n ih =>
    intro i w hin hl
    have hmod : (base + i) % wrap32 = base + i := Nat.mod_eq_of_lt (by omega)
    have hil : base + i < w.length := by omega
    obtain ⟨w', h1, h2, h3⟩ := ih (i + 1) (w.set (base + i) (data ((i + off) % wrap32)))
      (by omega) (by simpa using hl)
    refine ⟨w', ?_, h2, ?_⟩
    · simp only [fillLoop, hmod, hil, if_true]
      exact h1
    · intro k
      rw [h3 k, List.getElem?_set]
      by_cases hk : base + i = k
      · subst hk
        have h1 : ¬ (base + (i + 1) ≤ base + i ∧ base + i < base + (i + 1) + n) := by omega
        have h2 : (base + i ≤ base + i ∧ base + i < base + i + (n + 1)) := by omega
        simp [h1, h2, hil]
      · by_cases hk2 : base + (i + 1) ≤ k ∧ k < base + (i + 1) + n
        · have : base + i ≤ k ∧ k < base + i + (n + 1) := by omega
          simp [hk2, this]
        · have : ¬ (base + i ≤ k ∧ k < base + i + (n + 1)) := by omega
          simp [hk2, this, hk]

theorem newSamples_length {α : Type} (data : Nat → α) (off f : Nat) :
    (newSamples data off f).length = f := by
  simp [newSamples]

theorem base_eq (N f : Nat) (hN : N < wrap32) (hf : f ≤ N) :
    (N + wrap32 - f) % wrap32 = N - f := by
  have : N + wrap32 - f = (N - f) + wrap32 := by omega
  rw [this, Nat.add_mod_right]
  exact Nat.mod_eq_of_lt (by omega)

/-- With at most `N` frames the channel body stays inside the window and leaves
the old window without its first `f` samples, followed by the `f` new ones. -/
theorem ingest_eq {α : Type} (N : Nat) (w : List α) (data : Nat → α) (off f : Nat)
    (hN : N < wrap32) (hw : w.length = N) (hf : f ≤ N) :
    ingest N w data off f = some (w.drop f ++ newSamples data off f) := by
  obtain ⟨w1, e1, l1, p1⟩ := shiftLoop_inv w f (by omega) (N - f) 0 w (by omega) rfl
    (by intro k; simp)
  obtain ⟨w2, e2, l2, p2⟩ := fillLoop_inv (N - f) off data N hN f 0 w1 (by omega) (by omega)
  have hres : ingest N w data off f = some w2 := by
    simp only [ingest, base_eq N f hN hf, e1, Option.bind]
    exact e2
  rw [hres]
  congr 1
  apply List.ext_getElem?
  intro k
  rw [p2 k, p1 k, List.getElem?_append]
  by_cases hk : k < N - f
  · have h1 : ¬ (N - f + 0 ≤ k ∧ k < N - f + 0 + f) := by omega
    have h2 : k < 0 + (N - f) := by omega
    have h3 : k < (List.drop f w).length := by simp; omega
    rw [if_neg h1, if_pos h2, if_pos h3, List.getElem?_drop, Nat.add_comm]
  · have h1 : ¬ k < (List.drop f w).length := by simp; omega
    rw [if_neg h1]
    by_cases hk2 : k < N
    · have h2 : N - f + 0 ≤ k ∧ k < N - f + 0 + f := by omega
      have h3 : (List.drop f w).length = N - f := by simp; omega
      have h4 : k - (N - f) < f := by omega
      rw [if_pos h2, h3]
      simp [newSamples, List.getElem?_range, h4]
    · have h2 : ¬ (N - f + 0 ≤ k ∧ k < N - f + 0 + f) := by omega
      have h3 : ¬ k < 0 + (N - f) := by omega
      have h4 : (List.drop f w).length = N - f := by simp; omega
      rw [if_neg h2, if_neg h3, h4]
      have h5 : ¬ (k - (N - f) < f) := by omega
      have h6 : w.length ≤ k := by omega
      have h7 : (List.range f)[k - (N - f)]? = none :=
        List.getElem?_eq_none (by simp; omega)
      simp [newSamples, h7, List.getElem?_eq_none h6]

/-- With more frames than the window holds, `4096 - frames` wraps around and the
very first read, `sample[j][0 + frames]`, is outside the window. -/
theorem ingest_overflow {α : Type} (N : Nat) (w : List α) (data : Nat → α) (off f : Nat)
    (hw : w.length = N) (hf : N < f) (hf32 : f < wrap32) :
    ingest N w data off f = none := by
  have hb : (N + wrap32 - f) % wrap32 = N + wrap32 - f := Nat.mod_eq_of_lt (by omega)
  obtain ⟨n, hn⟩ : ∃ n, N + wrap32 - f = n + 1 := ⟨N + wrap32 - f - 1, by omega⟩
  have hmod : (0 + f) % wrap32 = f := by
    rw [Nat.zero_add]; exact Nat.mod_eq_of_lt hf32
  have hget : w[(0 + f) % wrap32]? = none := by
    rw [hmod]; exact List.getElem?_eq_none (by omega)
  simp only [ingest]
  rw [hb, hn]
  simp only [shiftLoop, hget, Option.bind]

/-! ## One call of `refreshScope` -/

@[simp] theorem reconnectIfInvalid_sample0 {α : Type} (e : Env α) (s : Scope α) :
    (s.reconnectIfInvalid e).sample0 = s.sample0 := by
  unfold Scope.reconnectIfInvalid Scope.resetScope; split <;> rfl

@[simp] theorem reconnectIfInvalid_sample1 {α : Type} (e : Env α) (s : Scope α) :
    (s.reconnectIfInvalid e).sample1 = s.sample1 := by
  unfold Scope.reconnectIfInvalid Scope.resetScope; split <;> rfl

@[simp] theorem reconnectIfInvalid_paused {α : Type} (e : Env α) (s : Scope α) :
    (s.reconnectIfInvalid e).paused = s.paused := by
  unfold Scope.reconnectIfInvalid Scope.resetScope; split <;> rfl

@[simp] theorem reconnectIfInvalid_emptyFrames {α : Type} (e : Env α) (s : Scope α) :
    (s.reconnectIfInvalid e).emptyFrames = s.emptyFrames := by
  unfold Scope.reconnectIfInvalid Scope.resetScope; split <;> rfl

@[simp] theorem reconnectIfInvalid_panels {α : Type} (e : Env α) (s : Scope α) :
    (s.reconnectIfInvalid e).panels = s.panels := by
  unfold Scope.reconnectIfInvalid Scope.resetScope; split <;> rfl

@[simp] theorem reconnectIfInvalid_pulls {α : Type} (e : Env α) (s : Scope α) :
    (s.reconnectIfInvalid e).pulls = s.pulls := by
  unfold Scope.reconnectIfInvalid Scope.resetScope; split <;> rfl

theorem reconnectIfInvalid_valid {α : Type} (e : Env α) (s : Scope α)
    (h : s.readerValid = true) : s.reconnectIfInvalid e = s := by
  simp [Scope.reconnectIfInvalid, h]

theorem reconnectIfInvalid_invalid {α : Type} (e : Env α) (s : Scope α)
    (h : s.readerValid = false) : s.reconnectIfInvalid e = s.resetScope e.reconnect := by
  simp [Scope.reconnectIfInvalid, h]

theorem refreshScopeN_paused {α : Type} (N : Nat) (e : Env α) (s : Scope α)
    (hp : s.paused = true) : refreshScopeN N e s = some s := by
  simp [refreshScopeN, hp]

theorem refreshScopeN_hidden {α : Type} (N : Nat) (e : Env α) (s : Scope α)
    (hv : e.isVisible = false) : refreshScopeN N e s = some s := by
  simp [refreshScopeN, hv]

/-- A tick whose pull succeeds with at most `N` frames. -/
theorem refreshScopeN_pull {α : Type} (N : Nat) (e : Env α) (s : Scope α)
    (hN : N < wrap32) (hp : s.paused = false) (hv : e.isVisible = true)
    (hpull : e.pull = true) (hf : e.frames ≤ N)
    (h0 : s.sample0.length = N) (h1 : s.sample1.length = N) :
    refreshScopeN N e s = some
      { s.reconnectIfInvalid e with
        pulls := s.pulls + 1, emptyFrames := 0,
        sample0 := s.sample0.drop e.frames ++ e.channel 0,
        sample1 := s.sample1.drop e.frames ++ e.channel 1 } := by
  have hmod : e.frames % wrap32 = e.frames := Nat.mod_eq_of_lt (by omega)
  have i0 := ingest_eq N s.sample0 e.data ((e.maxFrames * 0) % wrap32) e.frames hN h0 hf
  have i1 := ingest_eq N s.sample1 e.data ((e.maxFrames * 1) % wrap32) e.frames hN h1 hf
  simp only [refreshScopeN, hp, hv, hpull, hmod, reconnectIfInvalid_sample0,
    reconnectIfInvalid_sample1, i0, i1, Env.channel, reconnectIfInvalid_pulls]
  simp

/-- A tick whose pull succeeds with more than `N` frames leaves the window. -/
theorem refreshScopeN_overflow {α : Type} (N : Nat) (e : Env α) (s : Scope α)
    (hp : s.paused = false) (hv : e.isVisible = true) (hpull : e.pull = true)
    (hf : N < e.frames) (hf32 : e.frames < wrap32) (h0 : s.sample0.length = N) :
    refreshScopeN N e s = none := by
  have hmod : e.frames % wrap32 = e.frames := Nat.mod_eq_of_lt hf32
  have i0 := ingest_overflow N s.sample0 e.data ((e.maxFrames * 0) % wrap32) e.frames h0 hf hf32
  simp only [refreshScopeN, hp, hv, hpull, hmod, reconnectIfInvalid_sample0, i0]
  simp

theorem eleven_lt_wrap32 : 11 < wrap32 := by decide

/-- A tick whose pull fails, in terms of the incremented counter. -/
theorem refreshScopeN_fail_gen {α : Type} (N : Nat) (e : Env α) (s : Scope α)
    (hp : s.paused = false) (hv : e.isVisible = true) (hpull : e.pull = false) :
    refreshScopeN N e s = some
      (if (s.emptyFrames + 1) % wrap32 ≤ 10 then
        { s.reconnectIfInvalid e with
          pulls := s.pulls + 1, emptyFrames := (s.emptyFrames + 1) % wrap32 }
      else
        { s.reconnectIfInvalid e with
          pulls := s.pulls + 1, emptyFrames := 0, readerValid := e.reconnectLate,
          resets := (s.reconnectIfInvalid e).resets + 1 }) := by
  by_cases hc : (s.emptyFrames + 1) % wrap32 ≤ 10
  · have : ¬ ((s.emptyFrames + 1) % wrap32 > 10) := by omega
    simp [refreshScopeN, hp, hv, hpull, hc, this]
  · have : (s.emptyFrames + 1) % wrap32 > 10 := by omega
    simp [refreshScopeN, hp, hv, hpull, hc, this, Scope.resetScope]

/-- A tick whose pull fails while the counter is below its largest value. -/
theorem refreshScopeN_fail {α : Type} (N : Nat) (e : Env α) (s : Scope α)
    (hp : s.paused = false) (hv : e.isVisible = true) (hpull : e.pull = false)
    (hb : s.emptyFrames + 1 < wrap32) :
    refreshScopeN N e s = some
      (if s.emptyFrames < 10 then
        { s.reconnectIfInvalid e with pulls := s.pulls + 1, emptyFrames := s.emptyFrames + 1 }
      else
        { s.reconnectIfInvalid e with
          pulls := s.pulls + 1, emptyFrames := 0, readerValid := e.reconnectLate,
          resets := (s.reconnectIfInvalid e).resets + 1 }) := by
  rw [refreshScopeN_fail_gen N e s hp hv hpull, Nat.mod_eq_of_lt hb]
  by_cases hc : s.emptyFrames < 10
  · rw [if_pos hc, if_pos (by omega)]
  · rw [if_neg hc, if_neg (by omega)]

/-- A tick whose pull fails while the counter has its largest value: the
increment wraps to `0`, which is not above `10`, so no reset is performed. -/
theorem refreshScopeN_fail_max {α : Type} (N : Nat) (e : Env α) (s : Scope α)
    (hp : s.paused = false) (hv : e.isVisible = true) (hpull : e.pull = false)
    (hb : s.emptyFrames + 1 = wrap32) :
    refreshScopeN N e s = some
      { s.reconnectIfInvalid e with pulls := s.pulls + 1, emptyFrames := 0 } := by
  rw [refreshScopeN_fail_gen N e s hp hv hpull, hb, Nat.mod_self]
  rfl

/-! ## Windows as lists -/

theorem window_get_old {α : Type} (w l : List α) (f N i : Nat) (hw : w.length = N)
    (hi : i < N - f) : (w.drop f ++ l)[i]? = w[i + f]? := by
  have h : i < (w.drop f).length := by simp; omega
  rw [List.getElem?_append_left h, List.getElem?_drop, Nat.add_comm]

theorem window_get_new {α : Type} (w l : List α) (f N i : Nat) (hw : w.length = N)
    (hf : f ≤ N) : (w.drop f ++ l)[N - f + i]? = l[i]? := by
  have h : (w.drop f).length ≤ N - f + i := by simp; omega
  rw [List.getElem?_append_right h]
  congr 1
  simp
  omega

theorem channel_length {α : Type} (e : Env α) (j : Nat) (hf : e.frames < wrap32) :
    (e.channel j).length = e.frames := by
  simp [Env.channel, newSamples_length, Nat.mod_eq_of_lt hf]

/-- When `max_frames() * j + frames` fits in an `unsigned int`, the samples read
for channel `j` are `data[max_frames * j + i]`, `i < frames`. -/
theorem channel_nowrap {α : Type} (e : Env α) (j : Nat)
    (h : e.maxFrames * j + e.frames ≤ wrap32) (hf : e.frames < wrap32) :
    e.channel j = (List.range e.frames).map (fun i => e.data (e.maxFrames * j + i)) := by
  unfold Env.channel newSamples
  rw [Nat.mod_eq_of_lt hf]
  apply List.map_congr_left
  intro i hi
  have hi2 : i < e.frames := by simpa using hi
  have h1 : e.maxFrames * j % wrap32 = e.maxFrames * j := Nat.mod_eq_of_lt (by omega)
  have h2 : (i + e.maxFrames * j) % wrap32 = i + e.maxFrames * j :=
    Nat.mod_eq_of_lt (by omega)
  rw [h1, h2, Nat.add_comm]

/-- The samples read for channel `j` are `data[(max_frames * j + i) mod 2^32]`,
`i < frames`. -/
theorem channel_wrapped {α : Type} (e : Env α) (j : Nat) (hf : e.frames < wrap32) :
    e.channel j
      = (List.range e.frames).map (fun i => e.data ((e.maxFrames * j + i) % wrap32)) := by
  unfold Env.channel newSamples
  rw [Nat.mod_eq_of_lt hf]
  apply List.map_congr_left
  intro i _
  rw [Nat.add_comm i, Nat.mod_add_mod]

theorem lastN_length {α : Type} (N : Nat) (l : List α) (h : N ≤ l.length) :
    (lastN N l).length = N := by
  simp [lastN]; omega

theorem lastN_step {α : Type} (N f : Nat) (L new : List α) (hL : N ≤ L.length)
    (hn : new.length = f) (hf : f ≤ N) :
    (lastN N L).drop f ++ new = lastN N (L ++ new) := by
  unfold lastN
  have h1 : (L ++ new).length - N = L.length - N + f := by simp; omega
  have h2 : L.length - N + f ≤ L.length := by omega
  rw [h1, List.drop_append_of_le_length h2, List.drop_drop]

theorem lastN_replicate {α : Type} (N : Nat) (z : α) :
    lastN N (List.replicate N z) = List.replicate N z := by
  simp [lastN]

theorem lastN_getLast {α : Type} (N : Nat) (l : List α) (x : α) (hN : 0 < N)
    (hl : N ≤ l.length) (hx : l.getLast? = some x) : (lastN N l)[N - 1]? = some x := by
  unfold lastN
  rw [List.getElem?_drop, ← hx, List.getLast?_eq_getElem?]
  congr 1
  omega

/-! ## Sequences of ticks -/

theorem runN_history {α : Type} (N : Nat) (hN : N < wrap32) :
    ∀ (es : List (Env α)) (s : Scope α) (H0 H1 : List α),
      s.paused = false → N ≤ H0.length → N ≤ H1.length →
      s.sample0 = lastN N H0 → s.sample1 = lastN N H1 →
      (∀ e ∈ es, e.isVisible = true ∧ e.pull = true ∧ e.frames ≤ N) →
      ∃ t, runN N es s = some t ∧ t.paused = false ∧
        t.sample0 = lastN N (H0 ++ ingested 0 es) ∧
        t.sample1 = lastN N (H1 ++ ingested 1 es) := by
  intro es
  induction es with
  | nil =>
    intro s H0 H1 hp _ _ h0 h1 _
    exact ⟨s, rfl, hp, by simpa [ingested] using h0, by simpa [ingested] using h1⟩
  | cons e es ih =>
    intro s H0 H1 hp hl0 hl1 h0 h1 hes
    obtain ⟨hv, hpull, hf⟩ := hes e (List.mem_cons_self e es)
    have hf32 : e.frames < wrap32 := by omega
    have hw0 : s.sample0.length = N := by rw [h0]; exact lastN_length N H0 hl0
    have hw1 : s.sample1.length = N := by rw [h1]; exact lastN_length N H1 hl1
    have hstep := refreshScopeN_pull N e s hN hp hv hpull hf hw0 hw1
    obtain ⟨t, ht, htp, ht0, ht1⟩ := ih
      { s.reconnectIfInvalid e with
        pulls := s.pulls + 1, emptyFrames := 0,
        sample0 := s.sample0.drop e.frames ++ e.channel 0,
        sample1 := s.sample1.drop e.frames ++ e.channel 1 }
      (H0 ++ e.channel 0) (H1 ++ e.channel 1)
      (by simpa using hp)
      (by simp; omega) (by simp; omega)
      (by
        show s.sample0.drop e.frames ++ e.channel 0 = _
        rw [h0]
        exact lastN_step N e.frames H0 (e.channel 0) hl0 (channel_length e 0 hf32) hf)
      (by
        show s.sample1.drop e.frames ++ e.channel 1 = _
        rw [h1]
        exact lastN_step N e.frames H1 (e.channel 1) hl1 (channel_length e 1 hf32) hf)
      (fun e' he' => hes e' (List.mem_cons_of_mem e he'))
    refine ⟨t, ?_, htp, ?_, ?_⟩
    · simp only [runN, hstep, Option.bind]
      exact ht
    · rw [ht0]; simp [ingested, List.append_assoc]
    · rw [ht1]; simp [ingested, List.append_assoc]

theorem ingested_eq_nil {α : Type} (j : Nat) (es : List (Env α))
    (h : ∀ e ∈ es, e.frames = 0) : ingested j es = [] := by
  induction es with
  | nil => rfl
  | cons e es ih =>
    have h0 : e.frames = 0 := h e (List.mem_cons_self e es)
    simp [ingested, Env.channel, newSamples, h0,
      ih (fun e' he' => h e' (List.mem_cons_of_mem e he'))]

theorem runN_paused {α : Type} (N : Nat) (es : List (Env α)) (s : Scope α)
    (hp : s.paused = true) : runN N es s = some s := by
  induction es with
  | nil => rfl
  | cons e es ih => simp [runN, refreshScopeN_paused N e s hp, ih]

/-- Consecutive failing pulls, at most ten, from counter `0` with a valid reader:
the counter counts them and nothing else changes. -/
theorem runN_failing {α : Type} (N : Nat) :
    ∀ (es : List (Env α)) (s : Scope α),
      s.paused = false → s.readerValid = true →
      (∀ e ∈ es, e.isVisible = true ∧ e.pull = false) →
      s.emptyFrames + es.length ≤ 10 →
      runN N es s = some { s with emptyFrames := s.emptyFrames + es.length,
                                  pulls := s.pulls + es.length } := by
  intro es
  induction es with
  | nil => intro s _ _ _ _; simp [runN]
  | cons e es ih =>
    intro s hp hr hes hlen
    obtain ⟨hv, hpull⟩ := hes e (List.mem_cons_self e es)
    have hlen2 : s.emptyFrames + (es.length + 1) ≤ 10 := by simpa using hlen
    have hc : s.emptyFrames < 10 := by omega
    have hstep := refreshScopeN_fail N e s hp hv hpull
      (by have := eleven_lt_wrap32; omega)
    rw [if_pos hc, reconnectIfInvalid_valid e s hr] at hstep
    have := ih { s with pulls := s.pulls + 1, emptyFrames := s.emptyFrames + 1 }
      hp hr (fun e' he' => hes e' (List.mem_cons_of_mem e he'))
      (by show s.emptyFrames + 1 + es.length ≤ 10; omega)
    simp only [runN, hstep, Option.bind, this]
    simp only [List.length_cons]
    congr 2 <;> omega

/-- Ticks on which a live transport has nothing new: no reconnection, counter `0`. -/
theorem runN_idle {α : Type} (N : Nat) (hN : N < wrap32) :
    ∀ (es : List (Env α)) (s : Scope α),
      s.paused = false → s.readerValid = true →
      s.sample0.length = N → s.sample1.length = N →
      (∀ e ∈ es, e.isVisible = true ∧ e.pull = true ∧ e.frames = 0) →
      runN N es s = some { s with emptyFrames := if es.length = 0 then s.emptyFrames else 0,
                                  pulls := s.pulls + es.length } := by
  intro es
  induction es with
  | nil => intro s _ _ _ _ _; simp [runN]
  | cons e es ih =>
    intro s hp hr h0 h1 hes
    obtain ⟨hv, hpull, hf⟩ := hes e (List.mem_cons_self e es)
    have hstep := refreshScopeN_pull N e s hN hp hv hpull (by omega) h0 h1
    have hch : ∀ j, e.channel j = [] := by
      intro j; simp [Env.channel, newSamples, hf]
    rw [reconnectIfInvalid_valid e s hr, hch 0, hch 1, hf] at hstep
    simp only [List.drop_zero, List.append_nil] at hstep
    have := ih { s with pulls := s.pulls + 1, emptyFrames := 0 }
      hp hr h0 h1 (fun e' he' => hes e' (List.mem_cons_of_mem e he'))
    simp only [runN, hstep, Option.bind, this]
    simp only [List.length_cons]
    have hne : ¬ (es.length + 1 = 0) := by omega
    rw [if_neg hne]
    congr 2
    · split <;> rfl
    · omega

/-! ## The sample windows -/

theorem zeros_length : zeros.length = 4096 := List.length_replicate 4096 0

/-- A pull that delivers exactly `N` frames replaces both windows by the new
samples. -/
theorem refreshScopeN_full {α : Type} (N : Nat) (e : Env α) (s : Scope α)
    (hN : N < wrap32) (hp : s.paused = false) (hv : e.isVisible = true)
    (hpull : e.pull = true) (hf : e.frames = N)
    (h0 : s.sample0.length = N) (h1 : s.sample1.length = N) :
    ∃ t, refreshScopeN N e s = some t ∧
      t.sample0 = e.channel 0 ∧ t.sample1 = e.channel 1 := by
  refine ⟨_, refreshScopeN_pull N e s hN hp hv hpull (by omega) h0 h1, ?_, ?_⟩
  · show s.sample0.drop e.frames ++ e.channel 0 = _
    rw [List.drop_eq_nil_of_le (by omega)]; rfl
  · show s.sample1.drop e.frames ++ e.channel 1 = _
    rw [List.drop_eq_nil_of_le (by omega)]; rfl

/-- Claim C2, the failing input: a pull that delivers `4097` frames to the real
scope (capacity `4096`).  The count is not clamped: `4096 - frames` wraps to
`4294967295` and the first read, `sample[0][0 + 4097]`, is outside the window,
so the call has no defined result. -/
theorem refreshScope_burst_out_of_bounds :
    Scope.refreshScope envBurst scope0 = none ∧
    (4096 + wrap32 - envBurst.frames) % wrap32 = 4294967295 ∧
    scope0.sample0[(0 + envBurst.frames) % wrap32]? = none := by
  refine ⟨?_, by decide, ?_⟩
  · exact refreshScopeN_overflow 4096 envBurst scope0 rfl rfl rfl (by decide) (by decide)
      zeros_length
  · exact List.getElem?_eq_none (by
      show zeros.length ≤ 4097 % 4294967296
      rw [zeros_length]; decide)

/-- Claim C3: for every sequence of ticks whose pulls succeed with at most `N`
frames each, applied to a scope whose windows are `N` copies of `z`, the run
returns, each window has exactly `N` elements and is the last `N` elements of
`N` copies of `z` followed by all samples ingested for that channel in call
order; in particular position `N - 1` holds the most recently ingested sample. -/
theorem window_is_recent_history {α : Type} (N : Nat) (z : α) (es : List (Env α))
    (s : Scope α) (hN : N < wrap32) (hp : s.paused = false)
    (h0 : s.sample0 = List.replicate N z) (h1 : s.sample1 = List.replicate N z)
    (hes : ∀ e ∈ es, e.isVisible = true ∧ e.pull = true ∧ e.frames ≤ N) :
    ∃ t, runN N es s = some t ∧
      t.sample0.length = N ∧ t.sample1.length = N ∧
      t.sample0 = lastN N (List.replicate N z ++ ingested 0 es) ∧
      t.sample1 = lastN N (List.replicate N z ++ ingested 1 es) ∧
      (∀ x, (ingested 0 es).getLast? = some x → t.sample0[N - 1]? = some x) ∧
      (∀ x, (ingested 1 es).getLast? = some x → t.sample1[N - 1]? = some x) := by
  obtain ⟨t, ht, _, t0, t1⟩ := runN_history N hN es s (List.replicate N z) (List.replicate N z)
    hp (by simp) (by simp) (by rw [h0, lastN_replicate]) (by rw [h1, lastN_replicate]) hes
  have key : ∀ (j : Nat) (x : α), (ingested j es).getLast? = some x →
      (lastN N (List.replicate N z ++ ingested j es))[N - 1]? = some x := by
    intro j x hx
    by_cases hN0 : N = 0
    · have hnil : ingested j es = [] :=
        ingested_eq_nil j es (fun e he => by have := (hes e he).2.2; omega)
      rw [hnil] at hx
      simp at hx
    · apply lastN_getLast N _ x (by omega) (by simp)
      rw [List.getLast?_append, hx]
      rfl
  refine ⟨t, ht, ?_, ?_, t0, t1, ?_, ?_⟩
  · rw [t0]; exact lastN_length N _ (by simp)
  · rw [t1]; exact lastN_length N _ (by simp)
  · intro x hx; rw [t0]; exact key 0 x hx
  · intro x hx; rw [t1]; exact key 1 x hx

/-- The scenario with capacity `8`: after the frames `1, 2, 3` and then
`4, …, 9`, both windows are `[2,3,4,5,6,7,8,9]` and position `7` holds `9`. -/
theorem window_is_recent_history_witness :
    ∃ t, runN 8 [envA, envB] small0 = some t ∧
      t.sample0 = [2, 3, 4, 5, 6, 7, 8, 9] ∧ t.sample1 = [2, 3, 4, 5, 6, 7, 8, 9] ∧
      t.sample0[7]? = some 9 := by
  obtain ⟨t, h, _, _, a, b, c, _⟩ := window_is_recent_history 8 (0 : Int) [envA, envB] small0
    (by decide) rfl rfl rfl (by decide)
  exact ⟨t, h, a.trans (by decide), b.trans (by decide), c 9 (by decide)⟩

/-! ## Pause -/

/-- Claim C6: while `paused` is set, any number of calls of `refreshScope`,
whatever the transport would answer, returns the state unchanged: both windows,
`emptyFrames`, the reader, and the number of pulls and resets performed. -/
theorem paused_ticks_change_nothing {α : Type} (s : Scope α) (es : List (Env α))
    (hp : s.paused = true) :
    Scope.run es s = some s ∧ ∀ e : Env α, Scope.refreshScope e s = some s :=
  ⟨runN_paused windowSize es s hp, fun e => refreshScopeN_paused windowSize e s hp⟩

/-- Pausing a fresh scope and ticking three times, with a burst, a failing pull
and an idle pull. -/
theorem paused_ticks_change_nothing_witness :
    scope0.togglePause.paused = true ∧
    Scope.run [envBurst, envFail, envIdle] scope0.togglePause = some scope0.togglePause :=
  ⟨rfl, (paused_ticks_change_nothing scope0.togglePause [envBurst, envFail, envIdle] rfl).1⟩

/-! ## The counter of failed pulls -/

theorem runN_append {α : Type} (N : Nat) (as bs : List (Env α)) (s : Scope α) :
    runN N (as ++ bs) s = (runN N as s).bind (runN N bs) := by
  induction as generalizing s with
  | nil => simp [runN]
  | cons a as ih =>
    simp only [List.cons_append, runN]
    cases refreshScopeN N a s with
    | none => rfl
    | some t => simpa using ih t

theorem refreshScopeN_pull_emptyFrames {α : Type} (N : Nat) (e : Env α) (s t : Scope α)
    (hp : s.paused = false) (hv : e.isVisible = true) (hpull : e.pull = true)
    (h : refreshScopeN N e s = some t) : t.emptyFrames = 0 := by
  simp only [refreshScopeN, hp, hv, hpull] at h
  simp only [Bool.false_eq_true, if_false, Bool.not_true, if_true] at h
  split at h
  · exact absurd h (by simp)
  · split at h
    · exact absurd h (by simp)
    · injection h with h
      rw [← h]

theorem refreshScopeN_emptyFrames_le {α : Type} (N : Nat) (e : Env α) (s t : Scope α)
    (hs : s.emptyFrames ≤ 10) (h : refreshScopeN N e s = some t) : t.emptyFrames ≤ 10 := by
  cases hp : s.paused with
  | true =>
    rw [refreshScopeN_paused N e s hp] at h
    injection h with h; rw [← h]; exact hs
  | false =>
    cases hv : e.isVisible with
    | false =>
      rw [refreshScopeN_hidden N e s hv] at h
      injection h with h; rw [← h]; exact hs
    | true =>
      cases hpull : e.pull with
      | true =>
        rw [refreshScopeN_pull_emptyFrames N e s t hp hv hpull h]
        exact Nat.zero_le 10
      | false =>
        rw [refreshScopeN_fail_gen N e s hp hv hpull] at h
        injection h with h
        rw [← h]
        split
        · assumption
        · exact Nat.zero_le 10

/-- In every reachable state the counter is at most `10`. -/
theorem emptyFrames_le_ten {α : Type} (N : Nat) (t : Scope α) (h : Reachable N t) :
    t.emptyFrames ≤ 10 := by
  induction h with
  | new w0 w1 valid _ _ => exact Nat.zero_le 10
  | tick e s t _ hstep ih => exact refreshScopeN_emptyFrames_le N e s t ih hstep
  | pause s _ ih => exact ih
  | enable name b s _ ih =>
    unfold Scope.enableScope
    split <;> exact ih
  | axes b s _ ih => exact ih

/-- Eleven consecutive failing pulls from counter `0` with a valid reader. -/
theorem runN_failing_eleven {α : Type} (N : Nat) (es : List (Env α)) (e : Env α)
    (s : Scope α) (hp : s.paused = false) (hr : s.readerValid = true)
    (hc : s.emptyFrames = 0) (hes : ∀ x ∈ es, x.isVisible = true ∧ x.pull = false)
    (hlen : es.length = 10) (he : e.isVisible = true ∧ e.pull = false) :
    runN N (es ++ [e]) s = some
      { s with emptyFrames := 0, readerValid := e.reconnectLate,
               resets := s.resets + 1, pulls := s.pulls + 11 } := by
  have h10 := runN_failing N es s hp hr hes (by omega)
  rw [runN_append, h10]
  have hstep := refreshScopeN_fail N e
    { s with emptyFrames := s.emptyFrames + es.length, pulls := s.pulls + es.length }
    hp he.1 he.2
    (by show s.emptyFrames + es.length + 1 < wrap32
        have := eleven_lt_wrap32; omega)
  have hc2 : ¬ (s.emptyFrames + es.length < 10) := by omega
  rw [if_neg hc2, reconnectIfInvalid_valid e
    { s with emptyFrames := s.emptyFrames + es.length, pulls := s.pulls + es.length } hr] at hstep
  rw [hlen] at hstep
  simp only [Option.bind, runN, hlen, hstep]

/-- Every tick that is neither paused nor hidden and that returns has performed
exactly one pull. -/
theorem refreshScopeN_pulls {α : Type} (N : Nat) (e : Env α) (s t : Scope α)
    (hp : s.paused = false) (hv : e.isVisible = true)
    (h : refreshScopeN N e s = some t) : t.pulls = s.pulls + 1 := by
  cases hpull : e.pull with
  | false =>
    rw [refreshScopeN_fail_gen N e s hp hv hpull] at h
    injection h with h
    rw [← h]
    split <;> rfl
  | true =>
    simp only [refreshScopeN, hp, hv, hpull] at h
    simp only [Bool.false_eq_true, if_false, Bool.not_true, if_true] at h
    split at h
    · exact absurd h (by simp)
    · split at h
      · exact absurd h (by simp)
      · injection h with h
        rw [← h]
        exact congrArg (fun n => n + 1) (reconnectIfInvalid_pulls e s)

/-- Claim C4 as stated fails: with a valid reader whose pull returns `(true, 0)`
the first tick leaves `emptyFrames` at `0` instead of incrementing it, and after
eleven such ticks no reconnection has been performed. -/
theorem idle_reader_never_reconnects :
    (Scope.refreshScope envIdle scope0).map (fun t => (t.emptyFrames, t.resets)) = some (0, 0) ∧
    (Scope.run (List.replicate 11 envIdle) scope0).map (fun t => (t.emptyFrames, t.resets))
      = some (0, 0) := by
  have h := runN_idle 4096 (by decide) (List.replicate 11 envIdle) scope0 rfl rfl
    zeros_length zeros_length
    (fun e he => by rw [List.eq_of_mem_replicate he]; exact ⟨rfl, rfl, rfl⟩)
  constructor
  · show (refreshScopeN 4096 envIdle scope0).map _ = _
    rw [refreshScopeN_pull 4096 envIdle scope0 (by decide) rfl rfl rfl (by decide)
      zeros_length zeros_length]
    rfl
  · show (runN 4096 (List.replicate 11 envIdle) scope0).map _ = _
    rw [h]
    rfl

/-- Claim C4, amended: from `emptyFrames = 0`, not paused, with a valid reader
whose pull returns `false` on every (visible) tick, each of the first ten ticks
increments the counter and performs no reconnection, and the eleventh performs
exactly one `resetScope`, after which the counter is `0`.  From any counter
value, ticks whose pull returns `(true, 0)` set the counter to `0`, leave the
windows and the reader as they are and perform no reconnection. -/
theorem recovery_threshold {α : Type} (N : Nat) (s : Scope α) (es : List (Env α))
    (e : Env α) (hp : s.paused = false) (hr : s.readerValid = true)
    (hc : s.emptyFrames = 0) (hes : ∀ x ∈ es, x.isVisible = true ∧ x.pull = false)
    (hlen : es.length = 10) (he : e.isVisible = true ∧ e.pull = false) :
    (∀ k, k ≤ 10 →
      runN N (es.take k) s = some { s with emptyFrames := k, pulls := s.pulls + k }) ∧
    runN N (es ++ [e]) s = some
      { s with emptyFrames := 0, readerValid := e.reconnectLate,
               resets := s.resets + 1, pulls := s.pulls + 11 } ∧
    (∀ (u : Scope α) (idle : List (Env α)),
      u.paused = false → u.readerValid = true → N < wrap32 →
      u.sample0.length = N → u.sample1.length = N → idle ≠ [] →
      (∀ x ∈ idle, x.isVisible = true ∧ x.pull = true ∧ x.frames = 0) →
      runN N idle u = some { u with emptyFrames := 0, pulls := u.pulls + idle.length }) := by
  refine ⟨?_, runN_failing_eleven N es e s hp hr hc hes hlen he, ?_⟩
  · intro k hk
    have hl : (es.take k).length = k := by rw [List.length_take]; omega
    have h := runN_failing N (es.take k) s hp hr
      (fun x hx => hes x (List.mem_of_mem_take hx)) (by omega)
    rw [h, hl, hc, Nat.zero_add]
  · intro u idle hup hur hN h0 h1 hne hidle
    have hlen0 : ¬ (idle.length = 0) := by
      intro h; exact hne (List.length_eq_zero.mp h)
    rw [runN_idle N hN idle u hup hur h0 h1 hidle, if_neg hlen0]

/-- Eleven failing pulls on the real scope: ten are tolerated, the eleventh
reconnects; and one idle pull takes the counter from `7` back to `0`. -/
theorem recovery_threshold_witness :
    (∀ k, k ≤ 10 → Scope.run ((List.replicate 10 envFail).take k) scope0
      = some { scope0 with emptyFrames := k, pulls := k }) ∧
    Scope.run (List.replicate 10 envFail ++ [envFail]) scope0
      = some { scope0 with emptyFrames := 0, readerValid := false, resets := 1, pulls := 11 } ∧
    Scope.run [envIdle] { scope0 with emptyFrames := 7 }
      = some { scope0 with emptyFrames := 0, pulls := 1 } := by
  have h := recovery_threshold 4096 scope0 (List.replicate 10 envFail) envFail rfl rfl rfl
    (fun x hx => by rw [List.eq_of_mem_replicate hx]; exact ⟨rfl, rfl⟩)
    (List.length_replicate 10 envFail) ⟨rfl, rfl⟩
  refine ⟨fun k hk => ?_, h.2.1, ?_⟩
  · have := h.1 k hk
    simpa [Scope.run, windowSize, scope0, Scope.new] using this
  · exact h.2.2 { scope0 with emptyFrames := 7 } [envIdle] rfl rfl (by decide)
      zeros_length zeros_length (by simp)
      (fun x hx => by rw [List.mem_singleton.mp hx]; exact ⟨rfl, rfl, rfl⟩)

/-- Claim C5 as stated fails: from `emptyFrames = 0` a tick whose pull returns
`false` performs no `resetScope`; the reader is kept and the counter becomes `1`. -/
theorem failed_pull_keeps_connection :
    (Scope.refreshScope envFail scope0).map (fun t => (t.resets, t.readerValid, t.emptyFrames))
      = some (0, true, 1) := by
  show (refreshScopeN 4096 envFail scope0).map _ = _
  rw [refreshScopeN_fail 4096 envFail scope0 rfl rfl rfl (by decide)]
  rfl

/-- Claim C5, amended: a tick (not paused, visible) whose pull returns `false`
leaves both windows unchanged and increments `emptyFrames` as an `unsigned int`.
It performs `resetScope` after the pull, within that same tick, exactly when the
incremented counter exceeds `10`, that is when `emptyFrames` was at least `10`
and below the largest value `2^32 - 1`; the counter is then set to `0`.  When
`emptyFrames < 10` the reader is kept and the counter is only incremented; at
`2^32 - 1` the counter wraps to `0` and no reset is performed. -/
theorem failed_pull_reconnects_at_threshold {α : Type} (N : Nat) (e : Env α) (s : Scope α)
    (hp : s.paused = false) (hv : e.isVisible = true) (hpull : e.pull = false) :
    ∃ t, refreshScopeN N e s = some t ∧
      t.sample0 = s.sample0 ∧ t.sample1 = s.sample1 ∧ t.pulls = s.pulls + 1 ∧
      (s.emptyFrames < 10 →
        t.resets = (s.reconnectIfInvalid e).resets ∧
        t.readerValid = (s.reconnectIfInvalid e).readerValid ∧
        t.emptyFrames = s.emptyFrames + 1) ∧
      (10 ≤ s.emptyFrames → s.emptyFrames + 1 < wrap32 →
        t.resets = (s.reconnectIfInvalid e).resets + 1 ∧
        t.readerValid = e.reconnectLate ∧ t.emptyFrames = 0) ∧
      (s.emptyFrames + 1 = wrap32 →
        t.resets = (s.reconnectIfInvalid e).resets ∧
        t.readerValid = (s.reconnectIfInvalid e).readerValid ∧
        t.emptyFrames = 0) := by
  have h11 := eleven_lt_wrap32
  refine ⟨_, refreshScopeN_fail_gen N e s hp hv hpull, ?_, ?_, ?_, ?_, ?_, ?_⟩
  · split <;> simp
  · split <;> simp
  · split <;> rfl
  · intro hc
    have hm : (s.emptyFrames + 1) % wrap32 = s.emptyFrames + 1 :=
      Nat.mod_eq_of_lt (by omega)
    rw [hm, if_pos (by omega)]
    exact ⟨rfl, rfl, rfl⟩
  · intro hc hb
    rw [Nat.mod_eq_of_lt hb, if_neg (by omega)]
    exact ⟨rfl, rfl, rfl⟩
  · intro hb
    rw [hb, Nat.mod_self, if_pos (by omega)]
    exact ⟨rfl, rfl, rfl⟩

/-- A failing pull at counter `0` and a valid reader: no reset, counter `1`. -/
theorem failed_pull_reconnects_at_threshold_witness :
    ∃ t, Scope.refreshScope envFail scope0 = some t ∧
      t.resets = 0 ∧ t.readerValid = true ∧ t.emptyFrames = 1 := by
  obtain ⟨t, h, _, _, _, hlt, _⟩ :=
    failed_pull_reconnects_at_threshold 4096 envFail scope0 rfl rfl rfl
  obtain ⟨a, b, c⟩ := hlt (by decide)
  exact ⟨t, h, a, b, c⟩

/-- Claim C9 as stated fails: a tick that starts with an invalid reader and
whose reconnection yields an invalid reader again still performs the pull, and
when that pull returns `false` the counter goes from `0` to `1`. -/
theorem failed_reconnect_still_pulls :
    scopeDown.readerValid = false ∧ envFail.reconnect = false ∧
    (Scope.refreshScope envFail scopeDown).map
      (fun t => (t.pulls, t.emptyFrames, t.readerValid, t.resets)) = some (1, 1, false, 1) := by
  refine ⟨rfl, rfl, ?_⟩
  show (refreshScopeN 4096 envFail scopeDown).map _ = _
  rw [refreshScopeN_fail 4096 envFail scopeDown rfl rfl rfl (by decide)]
  rfl

/-- Claim C9, amended: a tick (not paused, visible) that starts with an invalid
reader and whose reconnection yields a reader that is still invalid does not
return early: whatever the pull answers, a tick that returns has performed
`resetScope` and then exactly one pull.  When that pull returns `true` with at
most `N` frames the frames are ingested and the counter is set to `0`.  When it
returns `false` both windows are unchanged and the counter follows the rule of
failed pulls: below `10` it is incremented and the reader stays invalid; from
`10` up to `2^32 - 2`, `resetScope` is performed a second time and the counter
becomes `0`. -/
theorem failed_reconnect_tick {α : Type} (N : Nat) (e : Env α) (s : Scope α)
    (hp : s.paused = false) (hv : e.isVisible = true) (hr : s.readerValid = false)
    (hre : e.reconnect = false) :
    (∀ t, refreshScopeN N e s = some t → t.pulls = s.pulls + 1 ∧ s.resets + 1 ≤ t.resets) ∧
    (e.pull = true → N < wrap32 → e.frames ≤ N → s.sample0.length = N →
      s.sample1.length = N →
      refreshScopeN N e s = some
        { s with readerValid := false, resets := s.resets + 1, pulls := s.pulls + 1,
                 emptyFrames := 0,
                 sample0 := s.sample0.drop e.frames ++ e.channel 0,
                 sample1 := s.sample1.drop e.frames ++ e.channel 1 }) ∧
    (e.pull = false →
      ∃ t, refreshScopeN N e s = some t ∧
        t.pulls = s.pulls + 1 ∧ t.sample0 = s.sample0 ∧ t.sample1 = s.sample1 ∧
        (s.emptyFrames < 10 →
          t.emptyFrames = s.emptyFrames + 1 ∧ t.readerValid = false ∧
          t.resets = s.resets + 1) ∧
        (10 ≤ s.emptyFrames → s.emptyFrames + 1 < wrap32 →
          t.emptyFrames = 0 ∧ t.readerValid = e.reconnectLate ∧
          t.resets = s.resets + 2)) := by
  have h11 := eleven_lt_wrap32
  have hrc : s.reconnectIfInvalid e
      = { s with readerValid := false, resets := s.resets + 1 } := by
    rw [reconnectIfInvalid_invalid e s hr, Scope.resetScope, hre]
  refine ⟨?_, ?_, ?_⟩
  · intro t ht
    refine ⟨refreshScopeN_pulls N e s t hp hv ht, ?_⟩
    cases hpull : e.pull with
    | false =>
      rw [refreshScopeN_fail_gen N e s hp hv hpull, hrc] at ht
      injection ht with ht
      rw [← ht]
      split
      · exact Nat.le_refl _
      · exact Nat.le_succ _
    | true =>
      simp only [refreshScopeN, hp, hv, hpull] at ht
      simp only [Bool.false_eq_true, if_false, Bool.not_true, if_true] at ht
      split at ht
      · exact absurd ht (by simp)
      · split at ht
        · exact absurd ht (by simp)
        · injection ht with ht
          rw [← ht, hrc]
  · intro hpull hN hf h0 h1
    rw [refreshScopeN_pull N e s hN hp hv hpull hf h0 h1, hrc]
  · intro hpull
    refine ⟨_, refreshScopeN_fail_gen N e s hp hv hpull, ?_, ?_, ?_, ?_, ?_⟩
    · split <;> rfl
    · split <;> simp
    · split <;> simp
    · intro hc
      have hm : (s.emptyFrames + 1) % wrap32 = s.emptyFrames + 1 :=
        Nat.mod_eq_of_lt (by omega)
      rw [hm, if_pos (by omega), hrc]
      exact ⟨rfl, rfl, rfl⟩
    · intro hc hb
      rw [Nat.mod_eq_of_lt hb, if_neg (by omega), hrc]
      exact ⟨rfl, rfl, rfl⟩

/-- A fresh scope whose reader is invalid, one tick with a failing reconnection:
with a failing pull, and with a pull that succeeds with no frames. -/
theorem failed_reconnect_tick_witness :
    (∃ t, Scope.refreshScope envFail scopeDown = some t ∧
      t.pulls = 1 ∧ t.emptyFrames = 1 ∧ t.readerValid = false ∧ t.resets = 1) ∧
    (∀ t, Scope.refreshScope { envIdle with reconnect := false } scopeDown = some t →
      t.pulls = 1 ∧ 1 ≤ t.resets) := by
  constructor
  · obtain ⟨t, h, a, _, _, hlt, _⟩ :=
      (failed_reconnect_tick 4096 envFail scopeDown rfl rfl rfl rfl).2.2 rfl
    obtain ⟨b, c, d⟩ := hlt (by decide)
    exact ⟨t, h, a, b, c, d⟩
  · intro t ht
    exact (failed_reconnect_tick 4096 { envIdle with reconnect := false } scopeDown
      rfl rfl rfl rfl).1 t ht

theorem enablePanels_none (name : String) (b : Bool) (ps : List ScopePanel)
    (h : ∀ p ∈ ps, p.name ≠ name) : enablePanels name b ps = none := by
  induction ps with
  | nil => rfl
  | cons p ps ih =>
    have hp : p.name ≠ name := h p (List.mem_cons_self p ps)
    simp [enablePanels, hp, ih (fun q hq => h q (List.mem_cons_of_mem p hq))]

theorem setVisibleByName_of_not_mem (name : String) (b : Bool) (ps : List ScopePanel)
    (h : ∀ p ∈ ps, p.name ≠ name) : setVisibleByName name b ps = ps := by
  induction ps with
  | nil => rfl
  | cons p ps ih =>
    have hp : p.name ≠ name := h p (List.mem_cons_self p ps)
    have := ih (fun q hq => h q (List.mem_cons_of_mem p hq))
    unfold setVisibleByName at this ⊢
    simp [hp, this]

theorem setVisibleByName_names (name : String) (b : Bool) (ps : List ScopePanel) :
    (setVisibleByName name b ps).map (fun p => p.name) = ps.map (fun p => p.name) := by
  induction ps with
  | nil => rfl
  | cons p ps ih =>
    unfold setVisibleByName at ih ⊢
    simp only [List.map_cons, ih]
    congr 1
    split <;> rfl

theorem setVisibleByName_idem (name : String) (b : Bool) (ps : List ScopePanel) :
    setVisibleByName name b (setVisibleByName name b ps) = setVisibleByName name b ps := by
  induction ps with
  | nil => rfl
  | cons p ps ih =>
    unfold setVisibleByName at ih ⊢
    simp only [List.map_cons, ih]
    congr 1
    by_cases hp : p.name = name
    · simp [hp]
    · simp [hp]

/-- With pairwise distinct names, the loop of `enableScope` finds the panel
called `name` and changes the flag of that panel only. -/
theorem enablePanels_some (name : String) (b : Bool) (ps : List ScopePanel)
    (hmem : name ∈ ps.map (fun p => p.name)) (hnd : (ps.map (fun p => p.name)).Nodup) :
    enablePanels name b ps = some (setVisibleByName name b ps) := by
  induction ps with
  | nil => simp at hmem
  | cons p ps ih =>
    rw [List.map_cons, List.nodup_cons] at hnd
    by_cases hp : p.name = name
    · have hrest : ∀ q ∈ ps, q.name ≠ name := by
        intro q hq hqn
        apply hnd.1
        rw [hp, ← hqn]
        exact List.mem_map_of_mem (fun p => p.name) hq
      have := setVisibleByName_of_not_mem name b ps hrest
      unfold setVisibleByName at this ⊢
      simp [enablePanels, hp, this]
    · have hmem2 : name ∈ ps.map (fun p => p.name) := by
        rw [List.map_cons, List.mem_cons] at hmem
        rcases hmem with h | h
        · exact absurd h.symm hp
        · exact h
      have := ih hmem2 hnd.2
      unfold setVisibleByName at this ⊢
      simp [enablePanels, hp, this]

/-- Claim C7 as stated fails: for a name that matches no panel, `enableScope`
with `false` returns `true`, not the value passed. -/
theorem enableScope_unknown_false_returns_true :
    "nonexistent" ∉ scope0.getScopeNames ∧
    (scope0.enableScope "nonexistent" false).1 = true := by
  constructor
  · decide
  · rfl

/-- Claim C7, amended: for every name that matches no panel and every boolean
`b`, `enableScope name b` returns `true` (the value passed only when `b` is
`true`) and leaves the state, hence every panel's flag, unchanged. -/
theorem enableScope_unknown_panel {α : Type} (s : Scope α) (name : String) (b : Bool)
    (h : name ∉ s.getScopeNames) : s.enableScope name b = (true, s) := by
  have hnone : enablePanels name b s.panels = none := by
    apply enablePanels_none
    intro p hp hpn
    apply h
    rw [← hpn]
    exact List.mem_map_of_mem (fun p => p.name) hp
  simp [Scope.enableScope, hnone]

/-- The example of the specification: `enableScope("nonexistent", true)` returns
`true` and changes nothing. -/
theorem enableScope_unknown_panel_witness :
    "nonexistent" ∉ scope0.getScopeNames ∧
    scope0.enableScope "nonexistent" true = (true, scope0) :=
  ⟨by decide, enableScope_unknown_panel scope0 "nonexistent" true (by decide)⟩

/-- Claim C8: for every name among the constructed panels (`"Lissajous"`,
`"Left"`, `"Right"`) and every boolean `b`, `enableScope name b` returns `b`,
sets the flag of exactly that panel to `b`, leaves every other panel and the
rest of the state unchanged, and a second identical call changes nothing more. -/
theorem enableScope_known_panel {α : Type} (s : Scope α) (name : String) (b : Bool)
    (hnames : s.getScopeNames = ["Lissajous", "Left", "Right"])
    (hmem : name ∈ s.getScopeNames) :
    (s.enableScope name b).1 = b ∧
    (s.enableScope name b).2 = { s with panels := setVisibleByName name b s.panels } ∧
    (∀ p ∈ s.panels, p.name ≠ name → p ∈ (s.enableScope name b).2.panels) ∧
    (∀ q ∈ (s.enableScope name b).2.panels, q.name = name → q.visible = b) ∧
    (s.enableScope name b).2.enableScope name b = s.enableScope name b := by
  have hnd : (s.panels.map (fun p => p.name)).Nodup := by
    have : s.panels.map (fun p => p.name) = ["Lissajous", "Left", "Right"] := hnames
    rw [this]; decide
  have h1 := enablePanels_some name b s.panels hmem hnd
  have hres : s.enableScope name b
      = (b, { s with panels := setVisibleByName name b s.panels }) := by
    simp [Scope.enableScope, h1]
  have h2 : enablePanels name b (setVisibleByName name b s.panels)
      = some (setVisibleByName name b s.panels) := by
    have := enablePanels_some name b (setVisibleByName name b s.panels)
      (by rw [setVisibleByName_names]; exact hmem)
      (by rw [setVisibleByName_names]; exact hnd)
    rw [this, setVisibleByName_idem]
  rw [hres]
  refine ⟨rfl, rfl, ?_, ?_, ?_⟩
  · intro p hp hpn
    show p ∈ setVisibleByName name b s.panels
    unfold setVisibleByName
    rw [List.mem_map]
    exact ⟨p, hp, by simp [hpn]⟩
  · intro q hq hqn
    have hq2 : q ∈ setVisibleByName name b s.panels := hq
    unfold setVisibleByName at hq2
    rw [List.mem_map] at hq2
    obtain ⟨p, _, hpq⟩ := hq2
    by_cases hp : p.name = name
    · rw [if_pos hp] at hpq
      rw [← hpq]
    · rw [if_neg hp] at hpq
      rw [← hpq] at hqn
      exact absurd hqn hp
  · simp [Scope.enableScope, h2]

/-- Hiding the panel `"Left"` of a fresh scope. -/
theorem enableScope_known_panel_witness :
    (scope0.enableScope "Left" false).1 = false ∧
    (scope0.enableScope "Left" false).2.panels.map (fun p => (p.name, p.visible))
      = [("Lissajous", true), ("Left", false), ("Right", true)] := by
  have h := enableScope_known_panel scope0 "Left" false rfl (by decide)
  refine ⟨h.1, ?_⟩
  rw [h.2.1]
  decide

end SonicPi
